import Mathlib

/-
Verification of the adrf async serializer and view-mixin layer
(adrf/serializers.py and adrf/mixins.py) against its specification.

The Python code is shallowly embedded: a serializer instance becomes an
explicit state record (attribute presence is an Option), every operation
becomes a pure function returning the updated state together with either a
normal result or the Python exception it raises, and the externally supplied
collaborators (the framework validation routine run_validation, the child
representation functions, the persistence primitives) are function
parameters.  Ordering-sensitive operations (acreate, aupdate) additionally
emit an explicit event trace.
-/

set_option maxHeartbeats 1000000

namespace Adrf

/-- Kinds of Python exceptions raised on the embedded code paths. -/
inductive PyErr where
  | assertionError (msg : String)
  | validationError (detail : List (String × String))
  | attributeError (name : String)
  | nameError (name : String)
  | typeError (msg : String)
deriving DecidableEq

/-- Python dict lookup on an association list (first binding wins; the
invariant that keys are unique is carried as a Nodup hypothesis where it
matters). -/
def dlookup {V : Type} (d : List (String × V)) (k : String) : Option V :=
  (d.find? (fun p => p.1 == k)).map (fun p => p.2)

/-- Removal of a key, as performed by dict.pop. -/
def dremove {V : Type} (d : List (String × V)) (k : String) : List (String × V) :=
  d.filter (fun p => !(p.1 == k))

/-- Dict assignment d[k] = v (lookup-equivalent to the Python dict update). -/
def dset {V : Type} (d : List (String × V)) (k : String) (v : V) : List (String × V) :=
  dremove d k ++ [(k, v)]

/-- Python dict merge as in the expression with a double-splat of a over b:
entries of b win on key collision. -/
def dmerge {V : Type} (a b : List (String × V)) : List (String × V) :=
  a.filter (fun p => (dlookup b p.1).isNone) ++ b

/-- Sequence of dict assignments, one per entry of m. -/
def applySets {V : Type} (r : List (String × V)) (m : List (String × V)) :
    List (String × V) :=
  m.foldl (fun acc p => dset acc p.1 p.2) r

/-- State of a serializer instance (BaseAsyncSerializerMixin).  Each Option
field models the presence of the corresponding dynamically added Python
attribute: initial_data (present iff a data= keyword was given at
construction), instance, _validated_data, _errors, _data.  runCount is a
ghost counter of how many times the delegated run_validation routine has
actually executed, used to state the no-re-execution property. -/
structure SState (D I R V : Type) where
  initialData : Option D
  inst : Option I
  validatedData : Option (List (String × V))
  errors : Option (List (String × String))
  dataCache : Option R
  runCount : Nat
deriving DecidableEq

/-- Serializer construction (rest_framework BaseSerializer init): stores the
instance and, when a data= keyword is given, initial_data; no other
attribute exists yet. -/
def mkSerializer {D I R V : Type} (d : Option D) (i : Option I) : SState D I R V :=
  ⟨d, i, none, none, none, 0⟩

def noInitialDataMsg : String :=
  "Cannot call .is_valid() as no data= keyword argument was passed when instantiating the serializer instance."

def mustCallIsValidMsg : String :=
  "When a serializer is passed a data keyword argument you must call .is_valid() before attempting to access the serialized .data representation. You should either call .is_valid() first, or access .initial_data instead."

def validatedDataPropertyMsg : String :=
  "You must call .is_valid() before accessing .validated_data."

def commitMsg : String :=
  "commit is not a valid keyword argument to the asave() method."

def updateNoneMsg : String := "update() did not return an object instance."

def createNoneMsg : String := "create() did not return an object instance."

def nestedWriteMsg : String := "nested writes are not supported on this path."

def createTypeErrorMsg : String :=
  "Got a TypeError when calling the default manager create method."

/-- Lines 23-30 of serializers.py: when _validated_data is absent, run the
delegated validation routine rv over initial_data; on success cache its
result and an empty _errors, on a ValidationError cache an empty dict as
_validated_data and the structured detail as _errors. -/
def validatePhase {D I R V : Type}
    (rv : D → Except (List (String × String)) (List (String × V)))
    (init : D) (s : SState D I R V) : SState D I R V :=
  if s.validatedData.isSome then s
  else
    match rv init with
    | .ok vd =>
        { s with validatedData := some vd, errors := some [],
                 runCount := s.runCount + 1 }
    | .error e =>
        { s with validatedData := some [], errors := some e,
                 runCount := s.runCount + 1 }

/-- Lines 35-41 of serializers.py: lazily cache _data, choosing the
representation of the instance, of the validated data, or the initial value,
in that priority order, skipping the first two when errors are present
(getattr with a None default makes an absent _errors count as empty). -/
def reprPhase {D I R V : Type}
    (tI : I → R) (tV : List (String × V) → R) (gInit : D → R)
    (init : D) (s : SState D I R V) : SState D I R V :=
  if s.dataCache.isSome then s
  else if s.inst.isSome = true ∧ ((s.errors.getD []).isEmpty = true) then
    { s with dataCache := s.inst.map tI }
  else if s.validatedData.isSome = true ∧ ((s.errors.getD []).isEmpty = true) then
    { s with dataCache := s.validatedData.map tV }
  else
    { s with dataCache := some (gInit init) }

/-- BaseAsyncSerializerMixin.is_valid (serializers.py lines 17-43).  Returns
the updated serializer state plus either the boolean result or the raised
exception.  The initial assert requires initial_data; the validation only
runs when _validated_data is absent; a ValidationError carrying _errors is
raised when _errors is truthy and raise_exception is set (reading the bare
_errors attribute, so an externally erased _errors would raise
AttributeError); finally _data is cached and the call returns whether
_errors is empty. -/
def is_valid {D I R V : Type}
    (rv : D → Except (List (String × String)) (List (String × V)))
    (tI : I → R) (tV : List (String × V) → R) (gInit : D → R)
    (raiseExc : Bool) (s : SState D I R V) :
    SState D I R V × Except PyErr Bool :=
  match s.initialData with
  | none => (s, .error (.assertionError noInitialDataMsg))
  | some init =>
    let s1 := validatePhase rv init s
    match s1.errors with
    | none => (s1, .error (.attributeError "_errors"))
    | some errs =>
      if errs.isEmpty = false ∧ raiseExc = true then
        (s1, .error (.validationError errs))
      else
        (reprPhase tI tV gInit init s1, .ok errs.isEmpty)

/-- The data property of BaseAsyncSerializerMixin (serializers.py lines
45-56): an AssertionError when input data was given but validation has not
been attempted, otherwise a bare read of the _data attribute (AttributeError
when it was never cached).  Note that unlike the synchronous framework
property it performs no computation at all: the representation is only ever
computed inside is_valid. -/
def dataProp {D I R V : Type} (s : SState D I R V) : Except PyErr R :=
  if s.initialData.isSome = true ∧ s.validatedData.isNone = true then
    .error (.assertionError mustCallIsValidMsg)
  else
    match s.dataCache with
    | some d => .ok d
    | none => .error (.attributeError "_data")

/-- ModelSerializer.asave (serializers.py lines 141-164), with the create
and update operations abstracted as parameters (they are overridable and
may, on an override bug, return a null instance, modelled by none).  The
commit keyword is rejected, the cached validated data is merged with the
caller keyword arguments (caller wins), the call dispatches on the presence
of self.instance, stores the result there, and asserts it non-null. -/
def asave {D I R V : Type}
    (createF : List (String × V) → Option I)
    (updateF : I → List (String × V) → Option I)
    (s : SState D I R V) (kwargs : List (String × V)) :
    SState D I R V × Except PyErr I :=
  if (dlookup kwargs "commit").isSome then
    (s, .error (.assertionError commitMsg))
  else
    match s.validatedData with
    | none => (s, .error (.assertionError validatedDataPropertyMsg))
    | some vd =>
      let merged := dmerge vd kwargs
      match s.inst with
      | some i =>
        match updateF i merged with
        | some i2 => ({ s with inst := some i2 }, .ok i2)
        | none => ({ s with inst := none }, .error (.assertionError updateNoneMsg))
      | none =>
        match createF merged with
        | some i2 => ({ s with inst := some i2 }, .ok i2)
        | none => ({ s with inst := none }, .error (.assertionError createNoneMsg))

/-- Relation metadata for one field of the model field info. -/
structure RelInfo where
  toMany : Bool
deriving DecidableEq

/-- Whether a field name is a to-many relation according to the model field
info (the test on info.relations in the source). -/
def isToManyB (info : List (String × RelInfo)) (k : String) : Bool :=
  match dlookup info k with
  | some ri => ri.toMany
  | none => false

/-- The loop of acreate over info.relations (serializers.py lines 105-109):
each to-many relation field present in validated_data is popped out of it
and collected, in relation-info iteration order.  Returns the collected
many-to-many pairs and the remaining validated data. -/
def popM2M {V : Type} : List (String × RelInfo) → List (String × V) →
    List (String × V) × List (String × V)
  | [], vd => ([], vd)
  | p :: rest, vd =>
    if p.2.toMany = true then
      match dlookup vd p.1 with
      | some v =>
        let r := popM2M rest (dremove vd p.1)
        ((p.1, v) :: r.1, r.2)
      | none => popM2M rest vd
    else popM2M rest vd

/-- A persisted model instance: an object identity, scalar attributes, and
to-many relation assignments. -/
structure MInstance (V : Type) where
  oid : Nat
  attrs : List (String × V)
  rels : List (String × V)
deriving DecidableEq

/-- Observable persistence events of the create path: the single-entity
manager create call with its keyword arguments, and each subsequent
relation assignment. -/
inductive CreateEv (V : Type) where
  | managerCreate (kwargs : List (String × V))
  | setRel (field : String) (value : V)
deriving DecidableEq

/-- ModelSerializer.acreate (serializers.py lines 97-139).  nestedOK models
the outcome of the framework nested-write check (an AssertionError when it
fails); the to-many relations are popped from validated_data, the default
manager acreate is called with the remaining fields only (a TypeError, for
instance an argument that is not a model field, is re-raised with
diagnostic context), and each popped relation is assigned on the created
instance afterwards (via the relation set call).  The event trace records
the creation call and the relation assignments in order. -/
def acreate {V : Type} (nestedOK : Bool) (info : List (String × RelInfo))
    (modelFields : List String) (newOid : Nat) (vdata : List (String × V)) :
    List (CreateEv V) × Except PyErr (MInstance V) :=
  if nestedOK = false then ([], .error (.assertionError nestedWriteMsg))
  else
    let pr := popM2M info vdata
    let manyToMany := pr.1
    let remaining := pr.2
    if remaining.all (fun q => modelFields.contains q.1) then
      let created : MInstance V := ⟨newOid, remaining, []⟩
      let final : MInstance V := { created with rels := applySets created.rels manyToMany }
      (CreateEv.managerCreate remaining ::
         manyToMany.map (fun q => CreateEv.setRel q.1 q.2),
       .ok final)
    else
      ([CreateEv.managerCreate remaining], .error (.typeError createTypeErrorMsg))

/-- Observable events of the update path: an in-memory attribute
assignment, the awaited instance save, and the single joint gather of all
relation aset operations (issued together and awaited together). -/
inductive UpdateEv (V : Type) where
  | setattrEv (field : String) (value : V)
  | saveEv
  | gatherEv (ops : List (String × V))
deriving DecidableEq

/-- ModelSerializer.aupdate (serializers.py lines 166-189).  One pass over
validated_data collects the to-many fields and assigns every other field as
an attribute on the instance; the instance asave is awaited; only then are
the relation aset coroutines created and jointly awaited in a single
asyncio gather, recorded as one gather event carrying all of them. -/
def aupdate {V : Type} (nestedOK : Bool) (info : List (String × RelInfo))
    (inst : MInstance V) (vdata : List (String × V)) :
    List (UpdateEv V) × Except PyErr (MInstance V) :=
  if nestedOK = false then ([], .error (.assertionError nestedWriteMsg))
  else
    let m2mFields := vdata.filter (fun p => isToManyB info p.1)
    let scalars := vdata.filter (fun p => !(isToManyB info p.1))
    let saved : MInstance V := { inst with attrs := applySets inst.attrs scalars }
    let final : MInstance V := { saved with rels := applySets saved.rels m2mFields }
    (scalars.map (fun p => UpdateEv.setattrEv p.1 p.2) ++ [UpdateEv.saveEv] ++
       [UpdateEv.gatherEv m2mFields],
     .ok final)

/-- AsyncCreateModelMixin.create (mixins.py lines 18-26).  The serializer is
built from the request body; the next source line reads
serializer.is_valid(raise_exception=True) with no await: is_valid is a
coroutine function here, so the call only builds a coroutine object that is
discarded and none of its body runs, leaving the serializer state
unchanged.  perform_create then awaits serializer.asave(), and on success
the response is built from serializer.data. -/
def mixinCreate {D I R V : Type}
    (createF : List (String × V) → Option I)
    (updateF : I → List (String × V) → Option I)
    (reqData : D) : Except PyErr (Nat × R) :=
  let s : SState D I R V := mkSerializer (some reqData) none
  let s1 := s
  match asave createF updateF s1 [] with
  | (_, .error e) => .error e
  | (s2, .ok _) =>
    match dataProp s2 with
    | .error e => .error e
    | .ok rdata => .ok (201, rdata)

/-- Method names defined by AsyncUpdateModelMixin itself (mixins.py). -/
def updateMixinMethodNames : List String :=
  ["update", "perform_update", "partial_update"]

/-- Modelled from the spec: the host capability interface the mixins assume
(the viewsets/generics module of this repository is not among the given
sources).  Per the spec it supplies the serializer factory, the queryset
accessor and filter, the object-lookup collaborator and the pagination and
success-header collaborators; it defines no method named aupdate. -/
def hostMethodNames : List String :=
  ["get_serializer", "get_queryset", "get_object", "filter_queryset",
   "paginate_queryset", "get_paginated_response", "get_success_headers"]

/-- Attribute lookup on the composed view object: a name resolves iff the
mixin or the host interface defines it. -/
def viewHasAttr (name : String) : Bool :=
  (updateMixinMethodNames ++ hostMethodNames).contains name

/-- AsyncUpdateModelMixin.partial_update (mixins.py lines 80-82).  It sets
the partial flag in kwargs and then evaluates self.aupdate: attribute
lookup of the name aupdate on the composed view.  When the lookup fails the
call raises AttributeError; the branch in which it succeeds would invoke
the resolved method (represented by the upd parameter). -/
def mixinPartialUpdate {D R : Type}
    (upd : D → Except PyErr (Nat × R)) (reqData : D) : Except PyErr (Nat × R) :=
  if viewHasAttr "aupdate" then upd reqData
  else .error (.attributeError "aupdate")

/-- The data property of the async ListSerializer (serializers.py lines
85-88): it first evaluates the inherited async-mixin data property, then
wraps the result in ReturnList — a name that adrf/serializers.py never
imports, so reaching that line raises NameError. -/
def listDataProp {D I R V : Type} (s : SState D I R V) : Except PyErr R :=
  match dataProp s with
  | .error e => .error e
  | .ok _ => .error (.nameError "ReturnList")

/-- Source of a collection representation: a lazy relation manager or a
concrete sequence. -/
inductive ListSource (I : Type) where
  | manager (items : List I)
  | seq (items : List I)

/-- ListSerializer.to_representation (serializers.py lines 73-83): a
manager source is first materialized element-by-element with an async for
over data.all(), a concrete sequence is used directly; each element
representation is then computed synchronously by the child serializer. -/
def listToRepresentation {I R : Type} (childRepr : I → R) (src : ListSource I) :
    List R :=
  let iterable :=
    match src with
    | .manager items => items
    | .seq items => items
  iterable.map childRepr

/-- AsyncListModelMixin.list (mixins.py lines 34-44): filter the queryset,
attempt pagination; on a page, build a many=True serializer over the page
and wrap its data in the paginated envelope; otherwise build a many=True
serializer over the whole queryset and respond 200 with its data.  Both
branches read the list serializer data property of a serializer constructed
with an instance and no input data. -/
def mixinList {D I R V : Type} (filterQ : List I → List I)
    (paginate : List I → Option (List I)) (wrapPage : R → R)
    (queryset : List I) : Except PyErr (Nat × R) :=
  let qs := filterQ queryset
  match paginate qs with
  | some page =>
    let s : SState D (List I) R V := mkSerializer none (some page)
    match listDataProp s with
    | .error e => .error e
    | .ok d => .ok (200, wrapPage d)
  | none =>
    let s : SState D (List I) R V := mkSerializer none (some qs)
    match listDataProp s with
    | .error e => .error e
    | .ok d => .ok (200, d)

/-- AsyncRetrieveModelMixin.retrieve (mixins.py lines 52-55): await the
object lookup (whose not-found condition propagates), build a serializer
for the instance, and respond 200 with serializer.data. -/
def mixinRetrieve {D I R V : Type} (lookedUp : Except PyErr I) :
    Except PyErr (Nat × R) :=
  match lookedUp with
  | .error e => .error e
  | .ok i =>
    let s : SState D I R V := mkSerializer none (some i)
    match dataProp s with
    | .error e => .error e
    | .ok d => .ok (200, d)

/-! Association-list (dict) lemmas. -/

theorem dlookup_nil {V : Type} (k : String) : dlookup ([] : List (String × V)) k = none := rfl

theorem dlookup_cons {V : Type} (p : String × V) (d : List (String × V)) (k : String) :
    dlookup (p :: d) k = if p.1 = k then some p.2 else dlookup d k := by
  by_cases h : p.1 = k
  · simp [dlookup, List.find?_cons_of_pos, h]
  · simp [dlookup, List.find?_cons_of_neg, h]

theorem dlookup_append {V : Type} (a b : List (String × V)) (k : String) :
    dlookup (a ++ b) k = (dlookup a k).orElse (fun _ => dlookup b k) := by
  induction a with
  | nil => simp [dlookup]
  | cons p rest ih =>
    rw [List.cons_append, dlookup_cons, dlookup_cons]
    by_cases h : p.1 = k
    · simp [h]
    · simp [h, ih]

theorem dlookup_dremove {V : Type} (d : List (String × V)) (j k : String) :
    dlookup (dremove d j) k = if k = j then none else dlookup d k := by
  induction d with
  | nil => simp [dremove, dlookup]
  | cons p rest ih =>
    by_cases hpj : p.1 = j
    · rw [dremove, List.filter_cons]
      simp only [hpj]
      by_cases hkj : k = j
      · simpa [dremove, hkj] using ih
      · have : ¬(j = k) := fun h => hkj h.symm
        simp only [beq_self_eq_true, Bool.not_true, if_false]
        rw [dlookup_cons]
        simp only [hpj, this, if_false]
        simpa [dremove, hkj] using ih
    · rw [dremove, List.filter_cons]
      have hb : (!(p.1 == j)) = true := by simp [hpj]
      rw [hb, if_pos rfl, dlookup_cons, dlookup_cons]
      by_cases hpk : p.1 = k
      · have hkj : ¬(k = j) := fun h => hpj (hpk.trans h)
        simp [hpk, hkj]
      · simpa [dremove, hpk] using ih

theorem dlookup_dset_self {V : Type} (d : List (String × V)) (k : String) (v : V) :
    dlookup (dset d k v) k = some v := by
  rw [dset, dlookup_append, dlookup_dremove]
  simp [dlookup_cons]

theorem dlookup_dset_ne {V : Type} (d : List (String × V)) (k k' : String) (v : V)
    (h : k' ≠ k) : dlookup (dset d k v) k' = dlookup d k' := by
  rw [dset, dlookup_append, dlookup_dremove, if_neg h, dlookup_cons, dlookup_nil,
    if_neg (fun hh : k = k' => h hh.symm)]
  cases dlookup d k' <;> rfl

theorem dlookup_dmerge {V : Type} (a b : List (String × V)) (k : String) :
    dlookup (dmerge a b) k = (dlookup b k).orElse (fun _ => dlookup a k) := by
  have hfilter : ∀ a : List (String × V),
      dlookup (a.filter (fun p => (dlookup b p.1).isNone)) k =
        (if (dlookup b k).isNone = true then dlookup a k else none) := by
    intro a
    induction a with
    | nil => simp [dlookup]
    | cons p rest ih =>
      rw [List.filter_cons]
      by_cases hp : (dlookup b p.1).isNone = true
      · rw [if_pos hp, dlookup_cons, dlookup_cons]
        by_cases hpk : p.1 = k
        · rw [hpk] at hp
          simp [hpk, hp]
        · simp [hpk, ih]
      · rw [if_neg hp, ih]
        by_cases hpk : p.1 = k
        · rw [hpk] at hp
          simp only [dlookup_cons]
          simp [hpk, hp]
        · rw [dlookup_cons, if_neg hpk]
  rw [dmerge, dlookup_append, hfilter]
  cases hb : dlookup b k with
  | none => simp [hb, Option.isNone]
  | some w => simp [hb, Option.isNone]

theorem dlookup_eq_none_of_not_mem_keys {V : Type} (d : List (String × V)) (k : String)
    (h : k ∉ d.map Prod.fst) : dlookup d k = none := by
  induction d with
  | nil => rfl
  | cons p rest ih =>
    rw [dlookup_cons]
    simp only [List.map_cons, List.mem_cons] at h
    push_neg at h
    rw [if_neg (fun hh => h.1 hh.symm)]
    exact ih h.2

theorem applySets_not_keys {V : Type} (r m : List (String × V)) (k : String)
    (h : k ∉ m.map Prod.fst) : dlookup (applySets r m) k = dlookup r k := by
  induction m generalizing r with
  | nil => rfl
  | cons p rest ih =>
    simp only [List.map_cons, List.mem_cons] at h
    push_neg at h
    rw [applySets, List.foldl_cons]
    have := ih (dset r p.1 p.2) h.2
    rw [applySets] at this
    rw [this, dlookup_dset_ne _ _ _ _ h.1]

theorem applySets_mem {V : Type} (r m : List (String × V)) (k : String) (v : V)
    (hm : (m.map Prod.fst).Nodup) (hkv : (k, v) ∈ m) :
    dlookup (applySets r m) k = some v := by
  induction m generalizing r with
  | nil => cases hkv
  | cons p rest ih =>
    rw [List.map_cons, List.nodup_cons] at hm
    rcases List.mem_cons.mp hkv with hhd | htl
    · have hk : p.1 = k := by rw [← hhd]
      have hv : p.2 = v := by rw [← hhd]
      rw [applySets, List.foldl_cons]
      have hnk : k ∉ rest.map Prod.fst := by rw [← hk]; exact hm.1
      have := applySets_not_keys (dset r p.1 p.2) rest k hnk
      rw [applySets] at this
      rw [this, hk, hv, dlookup_dset_self]
    · rw [applySets, List.foldl_cons]
      exact ih (dset r p.1 p.2) hm.2 htl

/-! Lemmas about the many-to-many popping loop. -/

theorem isToManyB_cons (p : String × RelInfo) (rest : List (String × RelInfo)) (k : String) :
    isToManyB (p :: rest) k = if p.1 = k then p.2.toMany else isToManyB rest k := by
  rw [isToManyB, dlookup_cons]
  by_cases h : p.1 = k
  · rw [if_pos h, if_pos h]
  · rw [if_neg h, if_neg h, isToManyB]

theorem popM2M_none_mono {V : Type} (info : List (String × RelInfo))
    (vd : List (String × V)) (k : String) (h : dlookup vd k = none) :
    dlookup (popM2M info vd).2 k = none := by
  induction info generalizing vd with
  | nil => simpa [popM2M] using h
  | cons p rest ih =>
    rw [popM2M]
    by_cases hm : p.2.toMany = true
    · rw [if_pos hm]
      cases hv : dlookup vd p.1 with
      | some v =>
        simp only []
        apply ih
        rw [dlookup_dremove]
        by_cases hk : k = p.1
        · rw [if_pos hk]
        · rw [if_neg hk]; exact h
      | none => exact ih vd h
    · rw [if_neg hm]; exact ih vd h

theorem popM2M_lookup_many {V : Type} (info : List (String × RelInfo))
    (vd : List (String × V)) (k : String) (h : isToManyB info k = true) :
    dlookup (popM2M info vd).2 k = none := by
  induction info generalizing vd with
  | nil => simp [isToManyB, dlookup] at h
  | cons p rest ih =>
    rw [isToManyB_cons] at h
    rw [popM2M]
    by_cases hpk : p.1 = k
    · rw [if_pos hpk] at h
      rw [if_pos h]
      cases hv : dlookup vd p.1 with
      | some v =>
        simp only []
        apply popM2M_none_mono
        rw [dlookup_dremove, hpk, if_pos rfl]
      | none =>
        apply popM2M_none_mono
        rw [← hpk]; exact hv
    · rw [if_neg hpk] at h
      by_cases hm : p.2.toMany = true
      · rw [if_pos hm]
        cases hv : dlookup vd p.1 with
        | some v => exact ih (dremove vd p.1) h
        | none => exact ih vd h
      · rw [if_neg hm]; exact ih vd h

theorem popM2M_lookup_notMany {V : Type} (info : List (String × RelInfo))
    (vd : List (String × V)) (k : String)
    (hinfo : (info.map Prod.fst).Nodup) (h : isToManyB info k = false) :
    dlookup (popM2M info vd).2 k = dlookup vd k := by
  induction info generalizing vd with
  | nil => rfl
  | cons p rest ih =>
    rw [List.map_cons, List.nodup_cons] at hinfo
    rw [isToManyB_cons] at h
    rw [popM2M]
    by_cases hpk : p.1 = k
    · rw [if_pos hpk] at h
      rw [if_neg (by rw [h]; exact Bool.false_ne_true)]
      have hrest : isToManyB rest k = false := by
        rw [isToManyB, dlookup_eq_none_of_not_mem_keys]
        rw [← hpk]; exact hinfo.1
      exact ih vd hinfo.2 hrest
    · rw [if_neg hpk] at h
      by_cases hm : p.2.toMany = true
      · rw [if_pos hm]
        cases hv : dlookup vd p.1 with
        | some v =>
          simp only []
          rw [ih (dremove vd p.1) hinfo.2 h, dlookup_dremove,
            if_neg (fun hh : k = p.1 => hpk hh.symm)]
        | none => exact ih vd hinfo.2 h
      · rw [if_neg hm]; exact ih vd hinfo.2 h

theorem popM2M_mem {V : Type} (info : List (String × RelInfo))
    (vd : List (String × V)) (k : String) (v : V)
    (hmany : isToManyB info k = true) (hv : dlookup vd k = some v) :
    (k, v) ∈ (popM2M info vd).1 := by
  induction info generalizing vd with
  | nil => simp [isToManyB, dlookup] at hmany
  | cons p rest ih =>
    rw [isToManyB_cons] at hmany
    rw [popM2M]
    by_cases hpk : p.1 = k
    · rw [if_pos hpk] at hmany
      rw [if_pos hmany]
      rw [hpk, hv]
      simp only []
      exact List.mem_cons_self _ _
    · rw [if_neg hpk] at hmany
      by_cases hm : p.2.toMany = true
      · rw [if_pos hm]
        cases hw : dlookup vd p.1 with
        | some w =>
          simp only []
          apply List.mem_cons_of_mem
          apply ih (dremove vd p.1) hmany
          rw [dlookup_dremove, if_neg (fun hh : k = p.1 => hpk hh.symm)]
          exact hv
        | none => exact ih vd hmany hv
      · rw [if_neg hm]; exact ih vd hmany hv

theorem popM2M_keys_sublist {V : Type} (info : List (String × RelInfo))
    (vd : List (String × V)) :
    ((popM2M info vd).1.map Prod.fst).Sublist (info.map Prod.fst) := by
  induction info generalizing vd with
  | nil => simp [popM2M]
  | cons p rest ih =>
    rw [popM2M]
    by_cases hm : p.2.toMany = true
    · rw [if_pos hm]
      cases hv : dlookup vd p.1 with
      | some v =>
        simp only [List.map_cons]
        exact List.Sublist.cons₂ _ (ih (dremove vd p.1))
      | none => exact List.Sublist.cons _ (ih vd)
    · rw [if_neg hm]
      exact List.Sublist.cons _ (ih vd)

/-! Lemmas about the validation and representation phases. -/

theorem validatePhase_initialData {D I R V : Type}
    (rv : D → Except (List (String × String)) (List (String × V))) (init : D)
    (s : SState D I R V) : (validatePhase rv init s).initialData = s.initialData := by
  rw [validatePhase]
  split
  · rfl
  · cases rv init <;> rfl

theorem validatePhase_inst {D I R V : Type}
    (rv : D → Except (List (String × String)) (List (String × V))) (init : D)
    (s : SState D I R V) : (validatePhase rv init s).inst = s.inst := by
  rw [validatePhase]
  split
  · rfl
  · cases rv init <;> rfl

theorem validatePhase_dataCache {D I R V : Type}
    (rv : D → Except (List (String × String)) (List (String × V))) (init : D)
    (s : SState D I R V) : (validatePhase rv init s).dataCache = s.dataCache := by
  rw [validatePhase]
  split
  · rfl
  · cases rv init <;> rfl

theorem validatePhase_isSome {D I R V : Type}
    (rv : D → Except (List (String × String)) (List (String × V))) (init : D)
    (s : SState D I R V) : (validatePhase rv init s).validatedData.isSome = true := by
  rw [validatePhase]
  split
  · assumption
  · cases rv init <;> rfl

theorem validatePhase_skip {D I R V : Type}
    (rv : D → Except (List (String × String)) (List (String × V))) (init : D)
    (s : SState D I R V) (h : s.validatedData.isSome = true) :
    validatePhase rv init s = s := by
  rw [validatePhase, if_pos h]

theorem reprPhase_skip {D I R V : Type}
    (tI : I → R) (tV : List (String × V) → R) (gInit : D → R) (init : D)
    (s : SState D I R V) (h : s.dataCache.isSome = true) :
    reprPhase tI tV gInit init s = s := by
  rw [reprPhase, if_pos h]

theorem reprPhase_fields {D I R V : Type}
    (tI : I → R) (tV : List (String × V) → R) (gInit : D → R) (init : D)
    (s : SState D I R V) :
    (reprPhase tI tV gInit init s).initialData = s.initialData ∧
    (reprPhase tI tV gInit init s).inst = s.inst ∧
    (reprPhase tI tV gInit init s).validatedData = s.validatedData ∧
    (reprPhase tI tV gInit init s).errors = s.errors ∧
    (reprPhase tI tV gInit init s).runCount = s.runCount := by
  rw [reprPhase]
  split
  · exact ⟨rfl, rfl, rfl, rfl, rfl⟩
  · split
    · exact ⟨rfl, rfl, rfl, rfl, rfl⟩
    · split
      · exact ⟨rfl, rfl, rfl, rfl, rfl⟩
      · exact ⟨rfl, rfl, rfl, rfl, rfl⟩

theorem reprPhase_dataCache_isSome {D I R V : Type}
    (tI : I → R) (tV : List (String × V) → R) (gInit : D → R) (init : D)
    (s : SState D I R V) :
    (reprPhase tI tV gInit init s).dataCache.isSome = true := by
  rw [reprPhase]
  split
  · assumption
  · split
    · rename_i hc h1
      rcases h1 with ⟨hi, _⟩
      cases hs : s.inst with
      | none => rw [hs] at hi; simp at hi
      | some i => simp [hs]
    · split
      · rename_i hc h1 h2
        rcases h2 with ⟨hv, _⟩
        cases hs : s.validatedData with
        | none => rw [hs] at hv; simp at hv
        | some vdd => simp [hs]
      · rfl

/-- C1: for every serializer whose validated data has been cached, asave
rejects a commit keyword argument with an assertion failure; otherwise it
merges the cached validated data with the caller keyword arguments (the
caller winning on key collision), dispatches to the update operation on the
current instance when one exists and to the create operation otherwise,
stores the result in self.instance, raises a fatal assertion failure when
the result is null, and returns the resulting instance. -/
theorem asave_spec {D I R V : Type} (createF : List (String × V) → Option I)
    (updateF : I → List (String × V) → Option I)
    (s : SState D I R V) (kwargs vd : List (String × V))
    (hvd : s.validatedData = some vd) :
    ((dlookup kwargs "commit").isSome = true →
        asave createF updateF s kwargs = (s, .error (.assertionError commitMsg))) ∧
    ((dlookup kwargs "commit").isSome = false →
      ((∀ k, dlookup (dmerge vd kwargs) k =
          (dlookup kwargs k).orElse (fun _ => dlookup vd k)) ∧
       (∀ i, s.inst = some i →
          (∀ i2, updateF i (dmerge vd kwargs) = some i2 →
              asave createF updateF s kwargs = ({ s with inst := some i2 }, .ok i2)) ∧
          (updateF i (dmerge vd kwargs) = none →
              asave createF updateF s kwargs =
                ({ s with inst := none }, .error (.assertionError updateNoneMsg)))) ∧
       (s.inst = none →
          (∀ i2, createF (dmerge vd kwargs) = some i2 →
              asave createF updateF s kwargs = ({ s with inst := some i2 }, .ok i2)) ∧
          (createF (dmerge vd kwargs) = none →
              asave createF updateF s kwargs =
                ({ s with inst := none }, .error (.assertionError createNoneMsg)))))) := by
  constructor
  · intro hc
    rw [asave, if_pos hc]
  · intro hc
    have hcn : ¬((dlookup kwargs "commit").isSome = true) := by
      rw [hc]; exact Bool.false_ne_true
    refine ⟨fun k => dlookup_dmerge vd kwargs k, ?_, ?_⟩
    · intro i hi
      constructor
      · intro i2 hu
        rw [asave, if_neg hcn, hvd]
        simp only [hi, hu]
      · intro hu
        rw [asave, if_neg hcn, hvd]
        simp only [hi, hu]
    · intro hn
      constructor
      · intro i2 hcf
        rw [asave, if_neg hcn, hvd]
        simp only [hn, hcf]
      · intro hcf
        rw [asave, if_neg hcn, hvd]
        simp only [hn, hcf]

/-- Witness for asave_spec at a concrete serializer: an existing instance 5,
validated data with keys a and b, and a keyword override of a; the update
operation increments the instance, so asave returns instance 6. -/
theorem asave_spec_witness :
    asave (fun _ => some 7) (fun i _ => some (i + 1))
        (⟨some 0, some 5, some [("a", 1), ("b", 3)], some [], none, 1⟩ :
          SState Nat Nat Nat Nat) [("a", 2)]
      = (⟨some 0, some 6, some [("a", 1), ("b", 3)], some [], none, 1⟩, Except.ok 6) := by
  have h := asave_spec (D := Nat) (R := Nat) (fun _ => some 7) (fun i _ => some (i + 1))
      ⟨some 0, some 5, some [("a", 1), ("b", 3)], some [], none, 1⟩ [("a", 2)]
      [("a", 1), ("b", 3)] rfl
  exact ((h.2 (by decide)).2.1 5 rfl).1 6 rfl

/-- C6 (refuting the claimed create flow): the async create mixin calls the
coroutine-valued is_valid without awaiting it, so validation never runs;
perform_create then awaits asave, whose read of the validated_data property
raises an AssertionError for every request body — the flow never yields the
claimed 400 validation response for a missing required field, nor a 201 for
valid input (contradicting the repository tests test_create and
test_400_parse scenarios). -/
theorem create_flow_always_asserts {D I R V : Type}
    (createF : List (String × V) → Option I)
    (updateF : I → List (String × V) → Option I) (reqData : D) :
    mixinCreate (R := R) createF updateF reqData =
      .error (.assertionError validatedDataPropertyMsg) := rfl

/-- C7 (refuting the claimed partial-update flow): partial_update evaluates
self.aupdate, a name defined neither by AsyncUpdateModelMixin nor by the
host interface, so every call fails with AttributeError instead of running
the update flow with the partial flag set. -/
theorem mixinPartialUpdate_attr_error {D R : Type}
    (upd : D → Except PyErr (Nat × R)) (reqData : D) :
    mixinPartialUpdate upd reqData = .error (.attributeError "aupdate") := by
  rw [mixinPartialUpdate]
  rw [if_neg (by decide : ¬(viewHasAttr "aupdate" = true))]

/-- C8 (refuting the claimed list flow): in both the paginated and the
unpaginated branch the mixin reads the data property of a list serializer
that was constructed with an instance and no input data; the async mixin
data property never computes a representation outside is_valid, so the
_data attribute is absent and every list request fails with AttributeError
instead of responding 200 (contradicting the repository test test_list). -/
theorem list_flow_attr_error {D I R V : Type} (filterQ : List I → List I)
    (paginate : List I → Option (List I)) (wrapPage : R → R) (queryset : List I) :
    mixinList (D := D) (V := V) filterQ paginate wrapPage queryset =
      .error (.attributeError "_data") := by
  rw [mixinList]
  cases paginate (filterQ queryset) with
  | some page => rfl
  | none => rfl

/-- C9 (refuting the claimed retrieve flow): after a successful object
lookup the mixin builds a read-only serializer and reads its data property;
the async mixin data property only returns the _data attribute cached by
is_valid, which retrieve never calls, so every retrieve fails with
AttributeError instead of responding 200 with the representation
(contradicting the repository test test_retrieve). -/
theorem retrieve_flow_attr_error {D I R V : Type} (i : I) :
    mixinRetrieve (D := D) (R := R) (V := V) (Except.ok i) =
      .error (.attributeError "_data") := rfl
/-- Shape of any normally returning is_valid call: the input state carried
initial data, the result state is the representation phase applied after
the validation phase, the cached errors are readable, the raise branch was
not taken, and the returned boolean is the emptiness of the errors. -/
theorem is_valid_ok_shape {D I R V : Type}
    (rv : D → Except (List (String × String)) (List (String × V)))
    (tI : I → R) (tV : List (String × V) → R) (gInit : D → R)
    (re : Bool) (s s1 : SState D I R V) (b1 : Bool)
    (h : is_valid rv tI tV gInit re s = (s1, .ok b1)) :
    ∃ init errs, s.initialData = some init ∧
      s1 = reprPhase tI tV gInit init (validatePhase rv init s) ∧
      (validatePhase rv init s).errors = some errs ∧
      ¬(errs.isEmpty = false ∧ re = true) ∧ b1 = errs.isEmpty := by
  cases hinit : s.initialData with
  | none =>
    simp only [is_valid, hinit] at h
    exact absurd (congrArg Prod.snd h) (by simp)
  | some init =>
    simp only [is_valid, hinit] at h
    cases herr : (validatePhase rv init s).errors with
    | none =>
      simp only [herr] at h
      exact absurd (congrArg Prod.snd h) (by simp)
    | some errs =>
      simp only [herr] at h
      by_cases hraise : errs.isEmpty = false ∧ re = true
      · rw [if_pos hraise] at h
        exact absurd (congrArg Prod.snd h) (by simp)
      · rw [if_neg hraise] at h
        rw [Prod.mk.injEq] at h
        refine ⟨init, errs, rfl, h.1.symm, herr, hraise, ?_⟩
        have h2 := h.2
        simp only [Except.ok.injEq] at h2
        exact h2.symm

/-- C2: is_valid is idempotent.  If a call on serializer state s has
completed normally with result state s1 and boolean b1, then the cached
validated-data attribute is present in s1 (the re-execution gate), any
later call with any raise_exception flag leaves the state exactly s1 —
in particular the ghost run counter is unchanged, so the delegated
validation routine is not re-executed and the errors and validated-data
state stay identical — and a later call with the same flag returns the
identical state and result. -/
theorem is_valid_idempotent {D I R V : Type}
    (rv : D → Except (List (String × String)) (List (String × V)))
    (tI : I → R) (tV : List (String × V) → R) (gInit : D → R)
    (re1 re2 : Bool) (s s1 : SState D I R V) (b1 : Bool)
    (h : is_valid rv tI tV gInit re1 s = (s1, .ok b1)) :
    s1.validatedData.isSome = true ∧
    (is_valid rv tI tV gInit re2 s1).1 = s1 ∧
    (is_valid rv tI tV gInit re2 s1).1.runCount = s1.runCount ∧
    is_valid rv tI tV gInit re1 s1 = (s1, .ok b1) := by
  obtain ⟨init, errs, hinit, hs1, herr, hraise, hb1⟩ :=
    is_valid_ok_shape rv tI tV gInit re1 s s1 b1 h
  have hfields := reprPhase_fields tI tV gInit init (validatePhase rv init s)
  have hs1init : s1.initialData = some init := by
    rw [hs1, hfields.1, validatePhase_initialData, hinit]
  have hs1vds : s1.validatedData.isSome = true := by
    rw [hs1, hfields.2.2.1]; exact validatePhase_isSome rv init s
  have hs1err : s1.errors = some errs := by
    rw [hs1, hfields.2.2.2.1]; exact herr
  have hdc : s1.dataCache.isSome = true := by
    rw [hs1]; exact reprPhase_dataCache_isSome tI tV gInit init _
  have hskipv : validatePhase rv init s1 = s1 := validatePhase_skip rv init s1 hs1vds
  have hrepr1 : reprPhase tI tV gInit init s1 = s1 := reprPhase_skip tI tV gInit init s1 hdc
  have hsecond : ∀ re' : Bool, is_valid rv tI tV gInit re' s1 =
      (s1, if errs.isEmpty = false ∧ re' = true then
             Except.error (PyErr.validationError errs) else Except.ok errs.isEmpty) := by
    intro re'
    simp only [is_valid, hs1init]
    rw [hskipv]
    simp only [hs1err]
    by_cases hr : errs.isEmpty = false ∧ re' = true
    · rw [if_pos hr, if_pos hr]
    · rw [if_neg hr, if_neg hr, hrepr1]
  refine ⟨hs1vds, ?_, ?_, ?_⟩
  · rw [hsecond re2]
  · rw [hsecond re2]
  · rw [hsecond re1, if_neg hraise, hb1]

/-- Witness for is_valid_idempotent: a concrete successful first call, and
the identical second call on its result state. -/
theorem is_valid_idempotent_witness :
    is_valid (fun _ : Nat => Except.ok [("a", (1 : Nat))]) (fun i : Nat => i)
        (fun _ => (0 : Nat)) (fun _ => 0) true
        (⟨some 0, none, some [("a", 1)], some [], some 0, 1⟩ : SState Nat Nat Nat Nat)
      = (⟨some 0, none, some [("a", 1)], some [], some 0, 1⟩, Except.ok true) :=
  (is_valid_idempotent (fun _ : Nat => Except.ok [("a", (1 : Nat))]) (fun i : Nat => i)
      (fun _ => (0 : Nat)) (fun _ => 0) true true
      (mkSerializer (some 0) none)
      ⟨some 0, none, some [("a", 1)], some [], some 0, 1⟩ true (by rfl)).2.2.2

/-- Evaluation of is_valid on a freshly constructed serializer that was
given input data: the validation routine runs, and the call either caches
the validated data with empty errors, raises the collected detail, or
caches an empty validated-data dict with the detail as errors. -/
theorem is_valid_fresh {D I R V : Type}
    (rv : D → Except (List (String × String)) (List (String × V)))
    (tI : I → R) (tV : List (String × V) → R) (gInit : D → R)
    (re : Bool) (init : D) (i : Option I) :
    is_valid rv tI tV gInit re (mkSerializer (some init) i : SState D I R V) =
      match rv init with
      | .ok vd =>
          (reprPhase tI tV gInit init ⟨some init, i, some vd, some [], none, 1⟩,
           .ok true)
      | .error e =>
          if e.isEmpty = false ∧ re = true then
            (⟨some init, i, some [], some e, none, 1⟩,
             .error (.validationError e))
          else
            (reprPhase tI tV gInit init ⟨some init, i, some [], some e, none, 1⟩,
             .ok e.isEmpty) := by
  cases hrv : rv init with
  | ok vd =>
    have hval : validatePhase rv init
        (⟨some init, i, none, none, none, 0⟩ : SState D I R V) =
        ⟨some init, i, some vd, some [], none, 1⟩ := by
      simp [validatePhase, hrv]
    simp only [is_valid, mkSerializer]
    rw [hval]
    dsimp only
    rw [if_neg (by simp)]
    rfl
  | error e =>
    have hval : validatePhase rv init
        (⟨some init, i, none, none, none, 0⟩ : SState D I R V) =
        ⟨some init, i, some [], some e, none, 1⟩ := by
      simp [validatePhase, hrv]
    simp only [is_valid, mkSerializer]
    rw [hval]

/-- C3: outcome of validation on a serializer constructed with input data.
When the validation routine succeeds, the validated data is cached and the
errors are empty and the call returns true; when it fails with (non-empty)
structured detail, the detail is stored as the errors while the cached
validated data is the empty dict, a ValidationError carrying the detail is
raised exactly when raise_exception is set, and otherwise the call returns
false; in every normally returning case the result is true exactly when the
stored errors are empty. -/
theorem is_valid_outcomes {D I R V : Type}
    (rv : D → Except (List (String × String)) (List (String × V)))
    (tI : I → R) (tV : List (String × V) → R) (gInit : D → R)
    (re : Bool) (init : D) (i : Option I)
    (s1 : SState D I R V) (r : Except PyErr Bool)
    (hne : ∀ e, rv init = .error e → e ≠ [])
    (h : is_valid rv tI tV gInit re (mkSerializer (some init) i) = (s1, r)) :
    (∀ vd, rv init = .ok vd →
        s1.validatedData = some vd ∧ s1.errors = some [] ∧ r = .ok true) ∧
    (∀ e, rv init = .error e →
        s1.validatedData = some [] ∧ s1.errors = some e ∧
        (re = true → r = .error (.validationError e)) ∧
        (re = false → r = .ok false)) ∧
    (∀ b, r = .ok b → (b = true ↔ s1.errors = some [])) := by
  rw [is_valid_fresh] at h
  cases hrv : rv init with
  | ok vd =>
    rw [hrv] at h
    dsimp only at h
    rw [Prod.mk.injEq] at h
    obtain ⟨hs1, hr⟩ := h
    have hfields := reprPhase_fields tI tV gInit init
      (⟨some init, i, some vd, some [], none, 1⟩ : SState D I R V)
    have hvd : s1.validatedData = some vd := by rw [← hs1, hfields.2.2.1]
    have herr : s1.errors = some [] := by rw [← hs1, hfields.2.2.2.1]
    refine ⟨?_, ?_, ?_⟩
    · intro vd' hvd'
      injection hvd' with hh
      subst hh
      exact ⟨hvd, herr, hr.symm⟩
    · intro e he
      exact Except.noConfusion he
    · intro b hb
      rw [← hr] at hb
      injection hb with hh
      subst hh
      simp [herr]
  | error e =>
    rw [hrv] at h
    dsimp only at h
    have hene : e.isEmpty = false := by
      cases e with
      | nil => exact absurd rfl (hne [] hrv)
      | cons a t => rfl
    cases re with
    | true =>
      rw [if_pos ⟨hene, rfl⟩] at h
      rw [Prod.mk.injEq] at h
      obtain ⟨hs1, hr⟩ := h
      refine ⟨?_, ?_, ?_⟩
      · intro vd' hvd'
        exact Except.noConfusion hvd'
      · intro e' he'
        injection he' with hh
        subst hh
        exact ⟨by rw [← hs1], by rw [← hs1], fun _ => hr.symm, by simp⟩
      · intro b hb
        rw [← hr] at hb
        exact Except.noConfusion hb
    | false =>
      rw [if_neg (by simp)] at h
      rw [Prod.mk.injEq] at h
      obtain ⟨hs1, hr⟩ := h
      have hfields := reprPhase_fields tI tV gInit init
        (⟨some init, i, some [], some e, none, 1⟩ : SState D I R V)
      have hvd : s1.validatedData = some [] := by rw [← hs1, hfields.2.2.1]
      have herr : s1.errors = some e := by rw [← hs1, hfields.2.2.2.1]
      refine ⟨?_, ?_, ?_⟩
      · intro vd' hvd'
        exact Except.noConfusion hvd'
      · intro e' he'
        injection he' with hh
        subst hh
        refine ⟨hvd, herr, by simp, fun _ => ?_⟩
        rw [← hr, hene]
      · intro b hb
        rw [← hr, hene] at hb
        injection hb with hh
        subst hh
        constructor
        · intro hbt; exact absurd hbt (by simp)
        · intro hse
          rw [herr] at hse
          injection hse with hh2
          exact absurd hh2 (hne e hrv)

/-- Witness for is_valid_outcomes: a concrete failing validation with a
field-keyed detail for the missing field, raise_exception set. -/
theorem is_valid_outcomes_witness :
    ((⟨some 0, none, some [], some [("sound", "required")], none, 1⟩ :
        SState Nat Nat Nat Nat).validatedData = some [] ∧
     (⟨some 0, none, some [], some [("sound", "required")], none, 1⟩ :
        SState Nat Nat Nat Nat).errors = some [("sound", "required")] ∧
     (true = true →
        (Except.error (PyErr.validationError [("sound", "required")]) :
          Except PyErr Bool) =
        Except.error (PyErr.validationError [("sound", "required")])) ∧
     (true = false →
        (Except.error (PyErr.validationError [("sound", "required")]) :
          Except PyErr Bool) = Except.ok false)) :=
  (is_valid_outcomes (fun _ : Nat => Except.error [("sound", "required")])
      (fun i : Nat => i) (fun _ => (0 : Nat)) (fun _ => 0) true 0 none
      ⟨some 0, none, some [], some [("sound", "required")], none, 1⟩
      (Except.error (PyErr.validationError [("sound", "required")]))
      (by intro e he; injection he with hh; subst hh; decide)
      (by rfl)).2.1 [("sound", "required")] rfl

/-- C10: for a serializer constructed with input data, reading the data
property before is_valid has been attempted raises the usage AssertionError
directing the caller to is_valid or initial_data; once is_valid has
returned normally, the data property returns exactly the representation
cached by that call — dataProp performs no computation of its own (it takes
no representation functions), so nothing is recomputed. -/
theorem data_property_spec {D I R V : Type}
    (rv : D → Except (List (String × String)) (List (String × V)))
    (tI : I → R) (tV : List (String × V) → R) (gInit : D → R)
    (re : Bool) (init : D) (i : Option I)
    (s1 : SState D I R V) (b : Bool)
    (h : is_valid rv tI tV gInit re (mkSerializer (some init) i) = (s1, .ok b)) :
    dataProp (mkSerializer (some init) i : SState D I R V) =
      .error (.assertionError mustCallIsValidMsg) ∧
    ∃ rdata, s1.dataCache = some rdata ∧ dataProp s1 = .ok rdata := by
  constructor
  · rfl
  · obtain ⟨init', errs, hinit, hs1, herr, hraise, hb⟩ :=
      is_valid_ok_shape rv tI tV gInit re (mkSerializer (some init) i) s1 b h
    have hfields := reprPhase_fields tI tV gInit init'
      (validatePhase rv init' (mkSerializer (some init) i))
    have hvds : s1.validatedData.isSome = true := by
      rw [hs1, hfields.2.2.1]
      exact validatePhase_isSome rv init' (mkSerializer (some init) i)
    have hdc : s1.dataCache.isSome = true := by
      rw [hs1]
      exact reprPhase_dataCache_isSome tI tV gInit init'
        (validatePhase rv init' (mkSerializer (some init) i))
    obtain ⟨rdata, hrd⟩ := Option.isSome_iff_exists.mp hdc
    refine ⟨rdata, hrd, ?_⟩
    have hns : ¬(s1.initialData.isSome = true ∧ s1.validatedData.isNone = true) := by
      intro hcond
      rw [Option.isNone_iff_eq_none] at hcond
      rw [hcond.2] at hvds
      simp at hvds
    rw [dataProp, if_neg hns, hrd]

/-- Witness for data_property_spec at a concrete serializer and completed
is_valid call. -/
theorem data_property_spec_witness :
    dataProp (mkSerializer (some 2) none : SState Nat Nat Nat Nat) =
      .error (.assertionError mustCallIsValidMsg) ∧
    ∃ rdata, (⟨some 2, none, some [("b", 5)], some [], some 9, 1⟩ :
        SState Nat Nat Nat Nat).dataCache = some rdata ∧
      dataProp (⟨some 2, none, some [("b", 5)], some [], some 9, 1⟩ :
        SState Nat Nat Nat Nat) = .ok rdata :=
  data_property_spec (fun _ : Nat => Except.ok [("b", (5 : Nat))]) (fun i : Nat => i)
    (fun _ => (9 : Nat)) (fun _ => 0) false 2 none
    ⟨some 2, none, some [("b", 5)], some [], some 9, 1⟩ true (by rfl)
/-- C4: behaviour of acreate when the nested-write check passes.  The event
trace starts with the single-entity manager create call, whose keyword
arguments contain no to-many relation field and agree with the validated
input on every other field (the to-many fields having been removed first);
everything after it is a relation assignment.  When creation succeeds, the
returned instance's scalar attributes are exactly the scalar subset of the
validated input, and every to-many field present in the input is reflected
in the corresponding relation of the returned instance. -/
theorem acreate_spec {V : Type} (info : List (String × RelInfo))
    (modelFields : List String) (newOid : Nat) (vdata : List (String × V))
    (tr : List (CreateEv V)) (res : Except PyErr (MInstance V))
    (hinfo : (info.map Prod.fst).Nodup)
    (h : acreate true info modelFields newOid vdata = (tr, res)) :
    (∃ scal rest2, tr = CreateEv.managerCreate scal :: rest2 ∧
       (∀ k, isToManyB info k = true → dlookup scal k = none) ∧
       (∀ k, isToManyB info k = false → dlookup scal k = dlookup vdata k) ∧
       (∀ e, e ∈ rest2 → ∃ k v, e = CreateEv.setRel k v)) ∧
    (∀ inst, res = .ok inst →
       (∀ k, isToManyB info k = true → dlookup inst.attrs k = none) ∧
       (∀ k, isToManyB info k = false → dlookup inst.attrs k = dlookup vdata k) ∧
       (∀ k v, isToManyB info k = true → dlookup vdata k = some v →
          dlookup inst.rels k = some v)) := by
  rw [acreate, if_neg (by decide : ¬(true = false))] at h
  dsimp only at h
  by_cases hall :
      ((popM2M info vdata).2.all (fun q => modelFields.contains q.1)) = true
  · rw [if_pos hall] at h
    rw [Prod.mk.injEq] at h
    obtain ⟨htr, hres⟩ := h
    constructor
    · refine ⟨(popM2M info vdata).2, _, htr.symm, ?_, ?_, ?_⟩
      · intro k hk
        exact popM2M_lookup_many info vdata k hk
      · intro k hk
        exact popM2M_lookup_notMany info vdata k hinfo hk
      · intro e he
        obtain ⟨q, hq, hqe⟩ := List.mem_map.mp he
        exact ⟨q.1, q.2, hqe.symm⟩
    · intro inst hinst
      rw [← hres] at hinst
      injection hinst with hh
      subst hh
      refine ⟨?_, ?_, ?_⟩
      · intro k hk
        exact popM2M_lookup_many info vdata k hk
      · intro k hk
        exact popM2M_lookup_notMany info vdata k hinfo hk
      · intro k v hk hv
        have hmem := popM2M_mem info vdata k v hk hv
        have hnodup : (((popM2M info vdata).1.map Prod.fst)).Nodup :=
          List.Nodup.sublist (popM2M_keys_sublist info vdata) hinfo
        exact applySets_mem _ _ k v hnodup hmem
  · rw [if_neg hall] at h
    rw [Prod.mk.injEq] at h
    obtain ⟨htr, hres⟩ := h
    constructor
    · refine ⟨(popM2M info vdata).2, [], htr.symm, ?_, ?_, ?_⟩
      · intro k hk
        exact popM2M_lookup_many info vdata k hk
      · intro k hk
        exact popM2M_lookup_notMany info vdata k hinfo hk
      · intro e he
        cases he
    · intro inst hinst
      rw [← hres] at hinst
      exact Except.noConfusion hinst

/-- Witness for acreate_spec: a model with a to-many field tags and scalar
field name; creating from input with both fields yields an instance whose
scalar attributes are only the name and whose tags relation holds the input
value. -/
theorem acreate_spec_witness :
    (([("tags", RelInfo.mk true), ("owner", RelInfo.mk false)].map Prod.fst).Nodup ∧
     dlookup (MInstance.mk 42 [("name", (1 : Nat))] [("tags", 2)]).rels "tags" =
       some 2) :=
  ⟨by decide,
   ((acreate_spec [("tags", RelInfo.mk true), ("owner", RelInfo.mk false)]
        ["name", "owner"] 42 [("name", (1 : Nat)), ("tags", 2)]
        [CreateEv.managerCreate [("name", 1)], CreateEv.setRel "tags" 2]
        (Except.ok (MInstance.mk 42 [("name", 1)] [("tags", 2)]))
        (by decide) rfl).2
      (MInstance.mk 42 [("name", 1)] [("tags", 2)]) rfl).2.2 "tags" 2
     (by decide) (by decide)⟩

/-- C5: behaviour of aupdate when the nested-write check passes.  The event
trace is a block of scalar attribute assignments, then the awaited instance
save, then a single joint gather of all the relation aset operations: the
save completes before any to-many update is initiated, and the relation
updates are all issued together in the one concurrently awaited gather with
no ordering among them; the gathered operations are exactly the to-many
fields of the validated input.  The returned instance is the same object
(same identity), its attributes reflect every scalar field of the input and
its relations every to-many field. -/
theorem aupdate_spec {V : Type} (info : List (String × RelInfo))
    (inst : MInstance V) (vdata : List (String × V))
    (tr : List (UpdateEv V)) (res : Except PyErr (MInstance V))
    (hvd : (vdata.map Prod.fst).Nodup)
    (h : aupdate true info inst vdata = (tr, res)) :
    (∃ pre ops,
        tr = pre ++ [UpdateEv.saveEv, UpdateEv.gatherEv ops] ∧
        (∀ e, e ∈ pre → ∃ k v, e = UpdateEv.setattrEv k v ∧
            isToManyB info k = false ∧ (k, v) ∈ vdata) ∧
        (∀ k v, ((k, v) ∈ ops ↔ ((k, v) ∈ vdata ∧ isToManyB info k = true)))) ∧
    (∀ upd, res = .ok upd →
        upd.oid = inst.oid ∧
        (∀ k v, (k, v) ∈ vdata → isToManyB info k = false →
            dlookup upd.attrs k = some v) ∧
        (∀ k v, (k, v) ∈ vdata → isToManyB info k = true →
            dlookup upd.rels k = some v)) := by
  rw [aupdate, if_neg (by decide : ¬(true = false))] at h
  dsimp only at h
  rw [Prod.mk.injEq] at h
  obtain ⟨htr, hres⟩ := h
  have hscalnd :
      ((vdata.filter (fun p => !(isToManyB info p.1))).map Prod.fst).Nodup :=
    List.Nodup.sublist (List.Sublist.map Prod.fst (List.filter_sublist vdata)) hvd
  have hm2mnd :
      ((vdata.filter (fun p => isToManyB info p.1)).map Prod.fst).Nodup :=
    List.Nodup.sublist (List.Sublist.map Prod.fst (List.filter_sublist vdata)) hvd
  constructor
  · refine ⟨(vdata.filter (fun p => !(isToManyB info p.1))).map
        (fun p => UpdateEv.setattrEv p.1 p.2),
      vdata.filter (fun p => isToManyB info p.1), ?_, ?_, ?_⟩
    · rw [← htr, List.append_assoc]
      rfl
    · intro e he
      obtain ⟨q, hq, hqe⟩ := List.mem_map.mp he
      have hq2 := List.mem_filter.mp hq
      refine ⟨q.1, q.2, hqe.symm, ?_, hq2.1⟩
      have := hq2.2
      simp only [Bool.not_eq_true'] at this
      exact this
    · intro k v
      constructor
      · intro hkv
        have h2 := List.mem_filter.mp hkv
        exact ⟨h2.1, h2.2⟩
      · intro hkv
        exact List.mem_filter.mpr ⟨hkv.1, hkv.2⟩
  · intro upd hupd
    rw [← hres] at hupd
    injection hupd with hh
    subst hh
    refine ⟨rfl, ?_, ?_⟩
    · intro k v hkv hk
      have hmem : (k, v) ∈ vdata.filter (fun p => !(isToManyB info p.1)) :=
        List.mem_filter.mpr ⟨hkv, by rw [hk]; rfl⟩
      exact applySets_mem _ _ k v hscalnd hmem
    · intro k v hkv hk
      have hmem : (k, v) ∈ vdata.filter (fun p => isToManyB info p.1) :=
        List.mem_filter.mpr ⟨hkv, hk⟩
      exact applySets_mem _ _ k v hm2mnd hmem

/-- Witness for aupdate_spec: updating instance 7 with a scalar name and a
to-many tags field; the resulting instance keeps identity 7, carries the
new name attribute, and its tags relation holds the input value. -/
theorem aupdate_spec_witness :
    (([("name", (3 : Nat)), ("tags", 4)].map Prod.fst).Nodup ∧
     dlookup (MInstance.mk 7 [("name", (3 : Nat))] [("tags", 4)]).rels "tags" =
       some 4) :=
  ⟨by decide,
   ((aupdate_spec [("tags", RelInfo.mk true), ("owner", RelInfo.mk false)]
        (MInstance.mk 7 [("name", (0 : Nat))] [])
        [("name", 3), ("tags", 4)]
        [UpdateEv.setattrEv "name" 3, UpdateEv.saveEv,
         UpdateEv.gatherEv [("tags", 4)]]
        (Except.ok (MInstance.mk 7 [("name", 3)] [("tags", 4)]))
        (by decide) rfl).2
      (MInstance.mk 7 [("name", 3)] [("tags", 4)]) rfl).2.2 "tags" 4
     (by decide) (by decide)⟩

end Adrf
